import Mathlib

/-!
Shallow embedding of the telemetry firmware in src/main/app_main.c:
a loop that reads a current measurement over UART, parses it with
sscanf, and publishes JSON readings over MQTT for three channels
(Cocina from the serial line, Sala and Garage synthetic).

Machine floats are modelled as rationals (decimal literals read at face
value), C strings as Lean strings, snprintf truncation as a take on the
character list, and the C library rand of the target libc (newlib) as the
64-bit linear congruential generator it implements.
-/

namespace CorrienteMqtt

/-- Session states of the broker connection, as surfaced by the MQTT
library events handled in mqtt_event_handler. -/
inductive SessionState
  | disconnected
  | connecting
  | connected
  | error
deriving DecidableEq, Repr

/-- Model of the ESP-IDF MQTT client handle (esp_mqtt_client_handle_t).
The library tracks the session state internally; the application only
holds the handle. nextMsgId stands for the locally generated message
identifier the library returns from a publish call. -/
structure Client where
  session : SessionState
  nextMsgId : Int
deriving DecidableEq, Repr

/-- Log severities used by the ESP_LOGx macros in the source. -/
inductive LogLevel
  | warn
  | info
  | errLvl
  | debug
deriving DecidableEq, Repr

/-- A publish request as handed to esp_mqtt_client_publish: topic,
payload, explicit length (0 meaning automatic), QoS level and retain
flag, in the order of the call in publish_corriente. -/
structure PublishReq where
  topic : String
  payload : String
  len : Nat
  qos : Nat
  retain : Bool
deriving DecidableEq, Repr

/-- Observable actions of the program: a publish request issued to the
MQTT library (with the returned message id) or a log line. -/
inductive Action
  | publish : PublishReq → Int → Action
  | log : LogLevel → String → Action
deriving DecidableEq, Repr

/-- Boundary of the external MQTT library: accepting a publish call and
returning the locally generated message id. The library accepts the
call for whatever session state the handle is in; in particular nothing
here consults c.session, matching the unconditional call in
publish_corriente. -/
def esp_mqtt_client_publish (c : Client) (topic payload : String)
    (len qos : Nat) (retain : Bool) : Int × PublishReq :=
  (c.nextMsgId, ⟨topic, payload, len, qos, retain⟩)

/-- Model of snprintf truncation: a buffer of n bytes holds at most n - 1
characters plus the terminating NUL, so the formatted string is cut to
its first n - 1 characters. -/
def snprintfB (n : Nat) (s : String) : String :=
  ⟨s.data.take (n - 1)⟩

/-- Decimal digit character, as produced by printf integer formatting. -/
def decDigitChar (d : Nat) : Char :=
  if d = 0 then '0' else if d = 1 then '1' else if d = 2 then '2'
  else if d = 3 then '3' else if d = 4 then '4' else if d = 5 then '5'
  else if d = 6 then '6' else if d = 7 then '7' else if d = 8 then '8'
  else '9'

/-- Little-endian decimal digits of n, with explicit fuel so that the
recursion is structural; n itself is always enough fuel. -/
def decDigitsRevFuel : Nat → Nat → List Nat
  | 0, _ => []
  | _ + 1, 0 => []
  | fuel + 1, n + 1 => (n + 1) % 10 :: decDigitsRevFuel fuel ((n + 1) / 10)

/-- Little-endian decimal digits of n (empty for 0). -/
def decDigitsRev (n : Nat) : List Nat :=
  decDigitsRevFuel n n

/-- Big-endian decimal digit list of m as printed, a single 0 for 0. -/
def decRepr (m : Nat) : List Nat :=
  if m = 0 then [0] else (decDigitsRev m).reverse

/-- Decimal rendering of a natural number, most significant digit first,
as printf renders the integral part of a number. -/
def natToDecStr (m : Nat) : String :=
  ⟨(decRepr m).map decDigitChar⟩

/-- Decimal rendering of a signed integer, as printf %lld renders the
long long timestamp. -/
def intToDecStr (n : ℤ) : String :=
  (if n < 0 then "-" else "") ++ natToDecStr n.natAbs

/-- Exactly two decimal digits, used for the fractional part of %.2f. -/
def twoDigits (m : Nat) : String :=
  ⟨[decDigitChar (m / 10 % 10), decDigitChar (m % 10)]⟩

/-- Rendering of a signed count of hundredths as a two-decimal number,
the shape %.2f prints. -/
def renderCenti (n : ℤ) : String :=
  (if n < 0 then "-" else "")
    ++ natToDecStr (n.natAbs / 100) ++ "." ++ twoDigits (n.natAbs % 100)

/-- The integer nearest to 100 * v, computed as the floor of
100 * v + 1 / 2 by integer floor division on numerator and denominator.
This is the count of hundredths that printf %.2f prints. (printf breaks
exact ties towards even, but no value this program formats is an exact
tie: two-decimal inputs round to themselves and the synthetic values
have odd reduced denominators.) -/
def roundCenti (v : ℚ) : ℤ :=
  Int.fdiv (200 * v.num + v.den) (2 * v.den)

/-- Model of printf %.2f on the rational model of a float: round to the
nearest hundredth and render with exactly two decimals. -/
def fmt2 (v : ℚ) : String :=
  renderCenti (roundCenti v)

/-- The topic built in publish_corriente: snprintf of casa/%s/corriente
into a 64-byte stack buffer. -/
def mkTopic (fase : String) : String :=
  snprintfB 64 ("casa/" ++ fase ++ "/corriente")

/-- The JSON payload built in publish_corriente: snprintf of
the ts and I fields into a 128-byte stack buffer, with the timestamp
printed as %lld and the current as %.2f. -/
def mkPayload (v : ℚ) (now : ℤ) : String :=
  snprintfB 128 ("\x7b\"ts\":" ++ intToDecStr now ++ ",\"I\":" ++ fmt2 v ++ "\x7d")

/-- publish_corriente from app_main.c: bail out with a warning log when
the global client handle is NULL, otherwise format topic and payload and
publish with automatic length, QoS 1 and retain unset, then log. The
global g_client is passed explicitly; time(NULL) is the parameter now. -/
def publish_corriente (g_client : Option Client) (fase : String)
    (I_rms : ℚ) (now : ℤ) : List Action :=
  match g_client with
  | none => [Action.log .warn "Cliente MQTT no inicializado, omitiendo publicación"]
  | some c =>
      let topic := mkTopic fase
      let payload := mkPayload I_rms now
      let pr := esp_mqtt_client_publish c topic payload 0 1 false
      [Action.publish pr.2 pr.1,
       Action.log .info ("Publicado msg_id=" ++ toString pr.1
         ++ " Tema=" ++ topic ++ " Payload=" ++ payload)]

/-- Events delivered to mqtt_event_handler. -/
inductive MqttEvent
  | connected
  | disconnected
  | published (msg_id : Int)
  | data (topic payload : String)
  | errorEv (error_type : Int)
  | other (event_id : Int)
deriving DecidableEq, Repr

/-- mqtt_event_handler from app_main.c: each event is only logged; no
state is updated and nothing is queued or republished. -/
def mqtt_event_handler : MqttEvent → List Action
  | .connected => [Action.log .info "Conectado al broker MQTT"]
  | .disconnected => [Action.log .info "Desconectado del broker MQTT"]
  | .published m => [Action.log .info ("Mensaje publicado (msg_id=" ++ toString m ++ ")")]
  | .data t p => [Action.log .info ("Mensaje recibido en " ++ t ++ ": " ++ p)]
  | .errorEv e => [Action.log .errLvl ("Error MQTT tipo=" ++ toString e)]
  | .other i => [Action.log .debug ("Evento MQTT no manejado id=" ++ toString i)]

/-! ### The serial frame parser

sscanf(buf, "Current reading: %f A", ...) == 1 requires the literal
text (with each space in the format matching any run of whitespace) and
then a successful %f conversion; the trailing " A" is not needed for
the return value to be 1, since the count of conversions is already 1
once %f has converted. %f skips leading whitespace, accepts an optional
sign and decimal digits with at most one decimal point, and needs at
least one digit. Exponent, inf and nan forms of strtod are not
modelled; none of the inputs of interest use them. -/

/-- Whitespace as recognised by sscanf directives. -/
def isWs (c : Char) : Bool :=
  c = ' ' || c = '\t' || c = '\n' || c = '\r'

/-- Skip a run of whitespace. -/
def skipWs : List Char → List Char
  | [] => []
  | c :: cs => if isWs c then skipWs cs else c :: cs

/-- Match a literal character sequence, returning the rest on success. -/
def matchLit : List Char → List Char → Option (List Char)
  | [], cs => some cs
  | _ :: _, [] => none
  | l :: ls, c :: cs => if c = l then matchLit ls cs else none

/-- Numeric value of a decimal digit character. -/
def digitVal (c : Char) : Nat :=
  c.toNat - 48

/-- Consume a run of decimal digits, accumulating their value left to
right; returns the value, the number of digits consumed, and the rest. -/
def parseNatAcc : List Char → Nat → Nat → Nat × Nat × List Char
  | [], acc, cnt => (acc, cnt, [])
  | c :: cs, acc, cnt =>
      if c.isDigit then parseNatAcc cs (acc * 10 + digitVal c) (cnt + 1)
      else (acc, cnt, c :: cs)

/-- An optional leading sign, as %f accepts. -/
def splitSign (cs : List Char) : Bool × List Char :=
  match cs with
  | [] => (false, [])
  | c :: t =>
      if c = '-' then (true, t)
      else if c = '+' then (false, t)
      else (false, c :: t)

/-- The textual content of a float token: sign, value of the integral
digits, value of the fractional digits, and how many fractional digits
there were. -/
structure FloatTok where
  neg : Bool
  ip : Nat
  fp : Nat
  fk : Nat
deriving DecidableEq, Repr

/-- The number a float token denotes. -/
def floatTokVal (t : FloatTok) : ℚ :=
  let mag : ℚ := (t.ip : ℚ) + (t.fp : ℚ) / 10 ^ t.fk
  if t.neg then -mag else mag

/-- The %f conversion: skip whitespace, optional sign, digits with an
optional single decimal point; fails when no digit at all is present. -/
def parseFloatTok (cs0 : List Char) : Option (FloatTok × List Char) :=
  let cs := skipWs cs0
  let s := splitSign cs
  let ip := parseNatAcc s.2 0 0
  let fp : Nat × Nat × List Char :=
    match ip.2.2 with
    | c :: t => if c = '.' then parseNatAcc t 0 0 else (0, 0, ip.2.2)
    | [] => (0, 0, [])
  if ip.2.1 + fp.2.1 = 0 then none
  else some (⟨s.1, ip.1, fp.1, fp.2.1⟩, fp.2.2)

/-- The frame parser: the sscanf call of app_main, returning the
converted current value when the call returns 1. -/
def parseCurrent (s : String) : Option ℚ :=
  match matchLit "Current".data s.data with
  | none => none
  | some r1 =>
      match matchLit "reading:".data (skipWs r1) with
      | none => none
      | some r2 => (parseFloatTok r2).map fun p => floatTokVal p.1

/-! ### The random source

ESP-IDF libc is newlib, whose rand keeps a 64-bit state seeded by
srand and updated by state = state * 6364136223846793005 + 1; the
returned value is (state >> 32) & RAND_MAX with RAND_MAX = 2^31 - 1. -/

/-- RAND_MAX of the target libc. -/
def RAND_MAX : Nat := 2147483647

/-- One step of the newlib rand state. -/
def randNext (st : Nat) : Nat :=
  (st * 6364136223846793005 + 1) % 2 ^ 64

/-- The value rand returns from a given state. -/
def randOut (st : Nat) : Nat :=
  st / 2 ^ 32 % 2 ^ 31

/-- The seed srand receives in app_main: esp_timer_get_time (a signed
64-bit microsecond count) cast to unsigned int. -/
def srandSeed (timer_time : ℤ) : Nat :=
  (timer_time % 2 ^ 32).toNat

/-- Sala synthetic value: 1.0f + ((float)rand() / RAND_MAX) * 0.5f. -/
def salaVal (r : Nat) : ℚ :=
  1 + (r : ℚ) / (RAND_MAX : ℚ) * (1 / 2)

/-- Garage synthetic value: 2.6f + ((float)rand() / RAND_MAX) * 0.3f. -/
def garageVal (r : Nat) : ℚ :=
  26 / 10 + (r : ℚ) / (RAND_MAX : ℚ) * (3 / 10)

/-- The two rand draws of one loop iteration and the resulting Sala and
Garage values, threading the hidden global rand state explicitly. -/
def cycleSynth (st : Nat) : (ℚ × ℚ) × Nat :=
  let st1 := randNext st
  let r1 := randOut st1
  let st2 := randNext st1
  let r2 := randOut st2
  ((salaVal r1, garageVal r2), st2)

/-! ### The main loop -/

/-- One iteration of the while loop of app_main. uart is the UART read
result: none when uart_read_bytes returned no bytes within the timeout,
some s for a read of the NUL-terminated bytes s. The MQTT handle c is
the one mqtt_app_start installed in g_client; now models time(NULL);
st is the hidden rand state. Returns the actions of the iteration and
the rand state it leaves behind. -/
def cycle (c : Client) (uart : Option String) (now : ℤ) (st : Nat) :
    List Action × Nat :=
  let serialActs : List Action :=
    match uart with
    | none => [Action.log .warn "No hubo datos en UART dentro del timeout"]
    | some s =>
        match parseCurrent s with
        | some v => publish_corriente (some c) "Cocina" v now
            ++ [Action.log .info ("Corriente publicada: " ++ fmt2 v ++ " A")]
        | none => [Action.log .warn ("No pude parsear UART: " ++ s)]
  let res := cycleSynth st
  (serialActs
     ++ publish_corriente (some c) "Sala" res.1.1 now
     ++ [Action.log .info ("Corriente publicada (Sala): " ++ fmt2 res.1.1 ++ " A")]
     ++ publish_corriente (some c) "Garage" res.1.2 now
     ++ [Action.log .info ("Corriente publicada (Garage): " ++ fmt2 res.1.2 ++ " A")],
   res.2)

/-- Run the loop for one cycle per entry of uarts, threading the rand
state, with a fixed clock value. -/
def runCycles (c : Client) (now : ℤ) : List (Option String) → Nat → List Action
  | [], _ => []
  | u :: us, st => (cycle c u now st).1 ++ runCycles c now us (cycle c u now st).2

/-- The publish requests contained in a list of actions. -/
def pubsOf (acts : List Action) : List PublishReq :=
  acts.filterMap fun a =>
    match a with
    | .publish r _ => some r
    | .log _ _ => none

/-- The topics of the publish requests, in order. -/
def pubTopics (acts : List Action) : List String :=
  (pubsOf acts).map PublishReq.topic

/-- The payloads published on one topic, in order. -/
def payloadsOn (t : String) (acts : List Action) : List String :=
  (pubsOf acts).filterMap fun r => if r.topic = t then some r.payload else none

/-- The Sala and Garage value pairs of n successive cycles from a given
rand state: the pure unfolding of cycleSynth. -/
def expectedSynth : Nat → Nat → List (ℚ × ℚ)
  | _, 0 => []
  | st, n + 1 => (cycleSynth st).1 :: expectedSynth (cycleSynth st).2 n

/-- Comma-separated rendering of JSON fields from key and
already-rendered value pairs. -/
def jsonFields : List (String × String) → String
  | [] => ""
  | [kv] => "\"" ++ kv.1 ++ "\":" ++ kv.2
  | kv :: rest => "\"" ++ kv.1 ++ "\":" ++ kv.2 ++ "," ++ jsonFields rest

/-- Rendering of a flat JSON object from key and already-rendered value
pairs, used to state the shape of the wire payload. -/
def jsonObjRender (fields : List (String × String)) : String :=
  "\x7b" ++ jsonFields fields ++ "\x7d"

/-- The character list does not start with a decimal digit, so a digit
run ends exactly there. -/
def noLeadDigit : List Char → Prop
  | [] => True
  | c :: _ => c.isDigit = false

/-! ### Helper lemmas -/

theorem decDigitChar_facts (d : Nat) (h : d < 10) :
    (decDigitChar d).isDigit = true ∧ digitVal (decDigitChar d) = d
    ∧ decDigitChar d ≠ '-' ∧ decDigitChar d ≠ '+'
    ∧ isWs (decDigitChar d) = false ∧ decDigitChar d ≠ '.' := by
  interval_cases d <;> exact ⟨rfl, rfl, by decide, by decide, rfl, by decide⟩

theorem parseNatAcc_digits (ds : List Nat) (hd : ∀ d ∈ ds, d < 10)
    (rest : List Char) (hr : noLeadDigit rest) (acc cnt : Nat) :
    parseNatAcc (ds.map decDigitChar ++ rest) acc cnt
      = (ds.foldl (fun a d => a * 10 + d) acc, cnt + ds.length, rest) := by
  induction ds generalizing acc cnt with
  | nil =>
      cases rest with
      | nil => simp [parseNatAcc]
      | cons c t =>
          have hc : c.isDigit = false := hr
          simp [parseNatAcc, hc]
  | cons d ds ih =>
      have hfacts := decDigitChar_facts d (hd d (List.mem_cons_self d ds))
      have ih2 := ih (fun e he => hd e (List.mem_cons_of_mem d he)) (acc * 10 + d) (cnt + 1)
      simp only [List.map_cons, List.cons_append, parseNatAcc, hfacts.1, if_true,
        hfacts.2.1, List.append_eq, ih2, List.length_cons, List.foldl_cons,
        Prod.mk.injEq]
      exact ⟨trivial, by omega, trivial⟩

theorem decDigitsRevFuel_eq_digits (fuel : Nat) : ∀ n : Nat, n ≤ fuel →
    decDigitsRevFuel fuel n = Nat.digits 10 n := by
  induction fuel with
  | zero =>
      intro n hn
      interval_cases n
      simp [decDigitsRevFuel]
  | succ fuel ih =>
      intro n hn
      match n with
      | 0 => simp [decDigitsRevFuel]
      | m + 1 =>
          rw [decDigitsRevFuel, Nat.digits_def' (by norm_num : 1 < 10) (Nat.succ_pos m),
            ih ((m + 1) / 10) (by omega)]

theorem decDigitsRev_eq_digits (n : Nat) : decDigitsRev n = Nat.digits 10 n :=
  decDigitsRevFuel_eq_digits n n (le_refl n)

theorem foldr_eq_ofDigits (L : List Nat) :
    L.foldr (fun d a => a * 10 + d) 0 = Nat.ofDigits 10 L := by
  induction L with
  | nil => simp [Nat.ofDigits_nil]
  | cons d L ih => simp [Nat.ofDigits_cons, ih]; omega

theorem decRepr_foldl (m : Nat) :
    (decRepr m).foldl (fun a d => a * 10 + d) 0 = m := by
  by_cases hm : m = 0
  · subst hm; rfl
  · rw [decRepr, if_neg hm, decDigitsRev_eq_digits, List.foldl_reverse]
    have h : (Nat.digits 10 m).foldr (fun x y => y * 10 + x) 0
        = (Nat.digits 10 m).foldr (fun d a => a * 10 + d) 0 := rfl
    rw [h, foldr_eq_ofDigits, Nat.ofDigits_digits]

theorem decRepr_lt (m : Nat) : ∀ d ∈ decRepr m, d < 10 := by
  intro d hd
  by_cases hm : m = 0
  · subst hm
    simp [decRepr] at hd
    omega
  · rw [decRepr, if_neg hm, decDigitsRev_eq_digits, List.mem_reverse] at hd
    exact Nat.digits_lt_base (by norm_num) hd

theorem decRepr_ne_nil (m : Nat) : decRepr m ≠ [] := by
  by_cases hm : m = 0
  · subst hm; simp [decRepr]
  · rw [decRepr, if_neg hm]
    simp [decDigitsRev_eq_digits, Nat.digits_ne_nil_iff_ne_zero, hm]

theorem snprintfB_eq_of_le (n : Nat) (s : String) (h : s.data.length ≤ n - 1) :
    snprintfB n s = s := by
  apply String.ext
  exact List.take_of_length_le h

theorem snprintfB_length (n : Nat) (s : String) :
    (snprintfB n s).length ≤ n - 1 := by
  show (List.take (n - 1) s.data).length ≤ n - 1
  rw [List.length_take]
  omega

theorem pubsOf_append (a b : List Action) :
    pubsOf (a ++ b) = pubsOf a ++ pubsOf b :=
  List.filterMap_append a b _

theorem pubsOf_publish_some (c : Client) (fase : String) (v : ℚ) (now : ℤ) :
    pubsOf (publish_corriente (some c) fase v now)
      = [⟨mkTopic fase, mkPayload v now, 0, 1, false⟩] := rfl

theorem pubsOf_publish_none (fase : String) (v : ℚ) (now : ℤ) :
    pubsOf (publish_corriente none fase v now) = [] := rfl

theorem pubsOf_log (lvl : LogLevel) (msg : String) :
    pubsOf [Action.log lvl msg] = [] := rfl

theorem pubsOf_cycle_none (c : Client) (now : ℤ) (st : Nat) :
    pubsOf (cycle c none now st).1
      = [⟨mkTopic "Sala", mkPayload (cycleSynth st).1.1 now, 0, 1, false⟩,
         ⟨mkTopic "Garage", mkPayload (cycleSynth st).1.2 now, 0, 1, false⟩] := by
  simp only [cycle, pubsOf_append, pubsOf_publish_some, pubsOf_log]
  simp

theorem pubsOf_cycle_fail (c : Client) (s : String) (now : ℤ) (st : Nat)
    (h : parseCurrent s = none) :
    pubsOf (cycle c (some s) now st).1
      = [⟨mkTopic "Sala", mkPayload (cycleSynth st).1.1 now, 0, 1, false⟩,
         ⟨mkTopic "Garage", mkPayload (cycleSynth st).1.2 now, 0, 1, false⟩] := by
  simp only [cycle, h, pubsOf_append, pubsOf_publish_some, pubsOf_log]
  simp

theorem pubsOf_cycle_ok (c : Client) (s : String) (v : ℚ) (now : ℤ) (st : Nat)
    (h : parseCurrent s = some v) :
    pubsOf (cycle c (some s) now st).1
      = [⟨mkTopic "Cocina", mkPayload v now, 0, 1, false⟩,
         ⟨mkTopic "Sala", mkPayload (cycleSynth st).1.1 now, 0, 1, false⟩,
         ⟨mkTopic "Garage", mkPayload (cycleSynth st).1.2 now, 0, 1, false⟩] := by
  simp only [cycle, h, pubsOf_append, pubsOf_publish_some, pubsOf_log]
  simp

/-! ### Claim theorems -/

/-- C9: when the global MQTT client handle is NULL, publish_corriente
returns after emitting exactly one warning log line: no publish call is
issued and nothing else happens, for every channel name and value. -/
theorem C9_nullHandleOnlyLogs (fase : String) (v : ℚ) (now : ℤ) :
    publish_corriente none fase v now
      = [Action.log .warn "Cliente MQTT no inicializado, omitiendo publicación"] := rfl

/-- C4: every publish request the program issues — through
publish_corriente for any handle, channel and value, and hence during
any loop cycle — carries QoS level 1 (at least once) and has the
retain flag unset. -/
theorem C4_qos1NoRetain (g : Option Client) (fase : String) (v : ℚ)
    (c : Client) (uart : Option String) (now : ℤ) (st : Nat) :
    ((pubsOf (publish_corriente g fase v now)).all
        fun r => r.qos == 1 && r.retain == false) = true
    ∧ ((pubsOf (cycle c uart now st).1).all
        fun r => r.qos == 1 && r.retain == false) = true := by
  constructor
  · match g with
    | none => rfl
    | some cl => rfl
  · match uart with
    | none => rw [pubsOf_cycle_none]; rfl
    | some s =>
        cases h : parseCurrent s with
        | none => rw [pubsOf_cycle_fail c s now st h]; rfl
        | some w => rw [pubsOf_cycle_ok c s w now st h]; rfl

/-- C6: a cycle whose bounded serial read returned zero bytes publishes
no serial-channel (Cocina) reading but still publishes exactly the two
synthetic channels Sala and Garage, in that order. -/
theorem C6_timeoutStillPublishesSynthetic (c : Client) (now : ℤ) (st : Nat) :
    pubTopics (cycle c none now st).1
      = ["casa/Sala/corriente", "casa/Garage/corriente"] := by
  rw [pubTopics, pubsOf_cycle_none]; rfl

/-- C5: for every serial input the parser rejects, parsing returns a
failure value (no reading at all), the cycle publishes nothing on the
serial channel Cocina, and the two synthetic channels Sala and Garage
are still published. -/
theorem C5_malformedInputNoSerialPublish (c : Client) (s : String) (now : ℤ)
    (st : Nat) (h : parseCurrent s = none) :
    pubTopics (cycle c (some s) now st).1
      = ["casa/Sala/corriente", "casa/Garage/corriente"] := by
  rw [pubTopics, pubsOf_cycle_fail c s now st h]; rfl

/-- Witness for C5 at the spec scenario input garbage, plus the other
malformed shapes named by the claim: empty buffer and non-numeric
value. -/
theorem C5_malformedInputNoSerialPublish_witness :
    parseCurrent "garbage" = none ∧ parseCurrent "" = none ∧
    parseCurrent "Current reading: abc A" = none ∧
    pubTopics (cycle ⟨.connected, 42⟩ (some "garbage") 1717000000 1).1
      = ["casa/Sala/corriente", "casa/Garage/corriente"] :=
  ⟨by decide, by decide, by decide,
   C5_malformedInputNoSerialPublish ⟨.connected, 42⟩ "garbage" 1717000000 1 (by decide)⟩

/-- C1 counterexample: with the client handle initialized but the
session in the Disconnected state, publish_corriente still issues a
publish call to the MQTT library — the code never consults the session
state, so a publication is not issued only while Connected. -/
theorem C1_publishIssuedWhileDisconnected :
    pubsOf (publish_corriente (some ⟨.disconnected, 7⟩) "Cocina" (617 / 50) 1717000000)
      ≠ [] := by
  rw [pubsOf_publish_some]
  exact fun h => List.cons_ne_nil _ _ h

/-- C1 amended: a publication is issued exactly when the MQTT client
handle is initialized. When the handle is NULL the attempt is dropped
with a single warning log and nothing is queued; when the handle is
present the publish call is issued whatever the session state is, and
the event handler itself never queues or issues publications. -/
theorem C1_publishGuardIsHandleNotSession (fase : String) (v : ℚ) (now : ℤ) :
    (publish_corriente none fase v now
        = [Action.log .warn "Cliente MQTT no inicializado, omitiendo publicación"])
    ∧ (∀ c : Client, pubsOf (publish_corriente (some c) fase v now)
        = [⟨mkTopic fase, mkPayload v now, 0, 1, false⟩])
    ∧ (∀ e : MqttEvent, pubsOf (mqtt_event_handler e) = []) :=
  ⟨rfl, fun c => pubsOf_publish_some c fase v now,
   fun e => by cases e <;> rfl⟩

/-- C10 counterexample: a channel name of 49 characters does not give
the topic casa/(channel)/corriente — the full topic would need 64
characters plus the NUL, one more than the 64-byte buffer holds, so
snprintf truncates it. -/
theorem C10_topic49Truncated :
    mkTopic ⟨List.replicate 49 'a'⟩
      ≠ "casa/" ++ ⟨List.replicate 49 'a'⟩ ++ "/corriente" := by
  intro h
  have hlen := congrArg String.length h
  rw [show (mkTopic ⟨List.replicate 49 'a'⟩).length = 63 from rfl,
    show ("casa/" ++ (⟨List.replicate 49 'a'⟩ : String) ++ "/corriente").length = 64
      from rfl] at hlen
  omega

/-- C10 amended: topic and payload formatting always stay within their
fixed buffers (at most 63 and 127 characters beside the NUL); for every
channel name of at most 48 characters the topic is exactly
casa/(channel)/corriente, and longer names are silently truncated. -/
theorem C10_topicBounded (fase : String) (h : fase.length ≤ 48) :
    mkTopic fase = "casa/" ++ fase ++ "/corriente"
    ∧ (∀ g : String, (mkTopic g).length ≤ 63)
    ∧ (∀ (v : ℚ) (now : ℤ), (mkPayload v now).length ≤ 127) := by
  refine ⟨?_, fun g => snprintfB_length 64 _, fun v now => snprintfB_length 128 _⟩
  apply snprintfB_eq_of_le
  rw [String.data_append, String.data_append]
  have h5 : ("casa/" : String).data.length = 5 := rfl
  have h10 : ("/corriente" : String).data.length = 10 := rfl
  have hf : fase.data.length ≤ 48 := h
  simp only [List.length_append, h5, h10]
  omega

/-- Witness for C10 amended at the channel name Cocina. -/
theorem C10_topicBounded_witness :
    ("Cocina" : String).length ≤ 48
    ∧ mkTopic "Cocina" = "casa/Cocina/corriente" :=
  ⟨by decide, by
    have h := (C10_topicBounded "Cocina" (by decide)).1
    rw [h]; rfl⟩

/-- C8: for every value the random source can return, that is every
integer from 0 to RAND_MAX, the Sala synthetic value lies in the range
1.0 to 1.5 and the Garage synthetic value lies in the range 2.6 to 2.9;
moreover every value randOut produces is indeed at most RAND_MAX. -/
theorem C8_syntheticValuesBounded (r : Nat) (h : r ≤ RAND_MAX) :
    (1 ≤ salaVal r ∧ salaVal r ≤ 3 / 2)
    ∧ (13 / 5 ≤ garageVal r ∧ garageVal r ≤ 29 / 10)
    ∧ (∀ st : Nat, randOut st ≤ RAND_MAX) := by
  have hR : (0 : ℚ) < (RAND_MAX : ℚ) := by
    rw [RAND_MAX]; norm_num
  have h0 : (0 : ℚ) ≤ (r : ℚ) / (RAND_MAX : ℚ) :=
    div_nonneg (Nat.cast_nonneg r) (le_of_lt hR)
  have h1 : (r : ℚ) / (RAND_MAX : ℚ) ≤ 1 := by
    rw [div_le_one hR]
    exact_mod_cast h
  refine ⟨⟨?_, ?_⟩, ⟨?_, ?_⟩, ?_⟩
  · rw [salaVal]; nlinarith
  · rw [salaVal]; nlinarith
  · rw [garageVal]; nlinarith
  · rw [garageVal]; nlinarith
  · intro st
    rw [randOut, RAND_MAX]
    have := Nat.mod_lt (st / 2 ^ 32) (show 0 < 2 ^ 31 by norm_num)
    omega

/-- Witness for C8 at the extreme draws 0 and RAND_MAX. -/
theorem C8_syntheticValuesBounded_witness :
    (0 : Nat) ≤ RAND_MAX ∧ 1 ≤ salaVal 0 ∧ salaVal 0 ≤ 3 / 2
    ∧ 13 / 5 ≤ garageVal RAND_MAX ∧ garageVal RAND_MAX ≤ 29 / 10 :=
  ⟨Nat.zero_le _,
   (C8_syntheticValuesBounded 0 (Nat.zero_le _)).1.1,
   (C8_syntheticValuesBounded 0 (Nat.zero_le _)).1.2,
   (C8_syntheticValuesBounded RAND_MAX (le_refl _)).2.1.1,
   (C8_syntheticValuesBounded RAND_MAX (le_refl _)).2.1.2⟩

theorem mkPayload_eq (v : ℚ) (now : ℤ) (hts : (intToDecStr now).length ≤ 20)
    (hi : (fmt2 v).length ≤ 46) :
    mkPayload v now
      = "\x7b\"ts\":" ++ intToDecStr now ++ ",\"I\":" ++ fmt2 v ++ "\x7d" := by
  apply snprintfB_eq_of_le
  repeat rw [String.data_append]
  have h6 : ("\x7b\"ts\":" : String).data.length = 6 := rfl
  have h5 : (",\"I\":" : String).data.length = 5 := rfl
  have h1 : ("\x7d" : String).data.length = 1 := rfl
  have hts2 : (intToDecStr now).data.length ≤ 20 := hts
  have hi2 : (fmt2 v).data.length ≤ 46 := hi
  simp only [List.length_append, h6, h5, h1]
  omega

theorem jsonObjRender_tsI (x y : String) :
    jsonObjRender [("ts", x), ("I", y)]
      = "\x7b\"ts\":" ++ x ++ ",\"I\":" ++ y ++ "\x7d" := by
  apply String.ext
  simp [jsonObjRender, jsonFields, String.data_append]

/-- C3: the published wire payload is the rendering of a JSON object
with exactly the two keys ts (the integer timestamp) and I (the value
at two-decimal precision), provided the two numbers fit the 128-byte
buffer as every C long long and float does; and on the scenario input
the parser yields 12.34 (the rational 617 / 50 = 1234 / 100), published
on topic casa/Cocina/corriente with the stated payload. -/
theorem C3_wirePayloadShape :
    (∀ (v : ℚ) (now : ℤ), (intToDecStr now).length ≤ 20 → (fmt2 v).length ≤ 46 →
        mkPayload v now = jsonObjRender [("ts", intToDecStr now), ("I", fmt2 v)])
    ∧ parseCurrent "Current reading: 12.34 A" = some (Rat.divInt 617 50)
    ∧ (Rat.divInt 617 50 : ℚ) = 1234 / 100
    ∧ fmt2 (Rat.divInt 617 50) = "12.34"
    ∧ mkTopic "Cocina" = "casa/Cocina/corriente"
    ∧ ∀ c : Client,
        pubsOf (publish_corriente (some c) "Cocina" (Rat.divInt 617 50) 1717000000)
          = [⟨"casa/Cocina/corriente", "\x7b\"ts\":1717000000,\"I\":12.34\x7d", 0, 1, false⟩] := by
  refine ⟨?_, ?_, ?_, ?_, ?_, ?_⟩
  · intro v now h1 h2
    rw [mkPayload_eq v now h1 h2, jsonObjRender_tsI]
  · have h : parseCurrent "Current reading: 12.34 A"
        = some (floatTokVal ⟨false, 12, 34, 2⟩) := rfl
    rw [h, floatTokVal, Rat.divInt_eq_div]
    norm_num
  · rw [Rat.divInt_eq_div]; norm_num
  · decide
  · decide
  · intro c
    rw [pubsOf_publish_some]
    decide

/-- Witness for C3 at value 12.34 and timestamp 1717000000. -/
theorem C3_wirePayloadShape_witness :
    (intToDecStr 1717000000).length ≤ 20
    ∧ (fmt2 (Rat.divInt 617 50)).length ≤ 46
    ∧ mkPayload (Rat.divInt 617 50) 1717000000
        = jsonObjRender [("ts", intToDecStr 1717000000), ("I", fmt2 (Rat.divInt 617 50))] :=
  ⟨by decide, by decide,
   C3_wirePayloadShape.1 (Rat.divInt 617 50) 1717000000 (by decide) (by decide)⟩

/-! ### Determinism of the synthetic channels -/

theorem payloadsOn_append (t : String) (a b : List Action) :
    payloadsOn t (a ++ b) = payloadsOn t a ++ payloadsOn t b := by
  simp only [payloadsOn, pubsOf_append, List.filterMap_append]

theorem payloadsOn_cycle_sala (c : Client) (u : Option String) (now : ℤ) (st : Nat) :
    payloadsOn "casa/Sala/corriente" (cycle c u now st).1
      = [mkPayload (cycleSynth st).1.1 now] := by
  have hS : mkTopic "Sala" = ("casa/Sala/corriente" : String) := by decide
  have hG : mkTopic "Garage" ≠ ("casa/Sala/corriente" : String) := by decide
  have hC : mkTopic "Cocina" ≠ ("casa/Sala/corriente" : String) := by decide
  match u with
  | none => simp only [payloadsOn, pubsOf_cycle_none]; simp [hS, hG]
  | some s =>
    cases h : parseCurrent s with
    | none =>
        simp only [payloadsOn, pubsOf_cycle_fail c s now st h]
        simp [hS, hG]
    | some v =>
        simp only [payloadsOn, pubsOf_cycle_ok c s v now st h]
        simp [hS, hG, hC]

theorem payloadsOn_cycle_garage (c : Client) (u : Option String) (now : ℤ) (st : Nat) :
    payloadsOn "casa/Garage/corriente" (cycle c u now st).1
      = [mkPayload (cycleSynth st).1.2 now] := by
  have hS : mkTopic "Sala" ≠ ("casa/Garage/corriente" : String) := by decide
  have hG : mkTopic "Garage" = ("casa/Garage/corriente" : String) := by decide
  have hC : mkTopic "Cocina" ≠ ("casa/Garage/corriente" : String) := by decide
  match u with
  | none => simp only [payloadsOn, pubsOf_cycle_none]; simp [hS, hG]
  | some s =>
    cases h : parseCurrent s with
    | none =>
        simp only [payloadsOn, pubsOf_cycle_fail c s now st h]
        simp [hS, hG]
    | some v =>
        simp only [payloadsOn, pubsOf_cycle_ok c s v now st h]
        simp [hS, hG, hC]

theorem cycle_snd (c : Client) (u : Option String) (now : ℤ) (st : Nat) :
    (cycle c u now st).2 = (cycleSynth st).2 := rfl

/-- C2 counterexample: seeding the generator once (seed 1 here) and
running two consecutive cycles publishes different Sala values — the
synthetic values come from the global rand stream, whose hidden state
advances between cycles, so identical cycles do not see identical seed
inputs and do not produce identical published values. -/
theorem C2_consecutiveCyclesDiffer :
    payloadsOn "casa/Sala/corriente"
        (runCycles ⟨.connected, 0⟩ 0 [none, none] 1)
      = ["\x7b\"ts\":0,\"I\":1.35\x7d", "\x7b\"ts\":0,\"I\":1.30\x7d"]
    ∧ ("\x7b\"ts\":0,\"I\":1.35\x7d" : String) ≠ "\x7b\"ts\":0,\"I\":1.30\x7d" := by
  constructor
  · simp only [runCycles, List.append_nil]
    rw [payloadsOn_append, payloadsOn_cycle_sala, payloadsOn_cycle_sala, cycle_snd]
    have h1 : (cycleSynth 1).1.1 = salaVal 1481765933 := rfl
    have h2 : (cycleSynth (cycleSynth 1).2).1.1 = salaVal 1270216262 := rfl
    have e1 : salaVal 1481765933 = Rat.divInt 5776733227 4294967294 := by
      rw [Rat.divInt_eq_div]
      norm_num [salaVal, RAND_MAX]
    have e2 : salaVal 1270216262 = Rat.divInt 2782591778 2147483647 := by
      rw [Rat.divInt_eq_div]
      norm_num [salaVal, RAND_MAX]
    rw [h1, h2, e1, e2]
    decide
  · decide

/-- C2 amended: the synthetic values are drawn from the global C
library rand stream, seeded once at startup — not from an injectable
per-cycle source. The Sala and Garage payload sequences of a run are
determined by the srand seed (together with the clock value) alone:
they are the pure unfolding expectedSynth of the generator state,
independent of the client, of the serial inputs, and of parse results,
so two runs with the same seed publish identical synthetic sequences,
while consecutive cycles within one run draw successive values. -/
theorem C2_syntheticsDeterminedBySeed (c : Client) (now : ℤ)
    (us : List (Option String)) (st : Nat) :
    payloadsOn "casa/Sala/corriente" (runCycles c now us st)
      = (expectedSynth st us.length).map (fun p => mkPayload p.1 now)
    ∧ payloadsOn "casa/Garage/corriente" (runCycles c now us st)
      = (expectedSynth st us.length).map (fun p => mkPayload p.2 now) := by
  induction us generalizing st with
  | nil => exact ⟨rfl, rfl⟩
  | cons u us ih =>
      constructor
      · simp only [runCycles, List.length_cons, expectedSynth, List.map_cons,
          payloadsOn_append, payloadsOn_cycle_sala, cycle_snd]
        rw [(ih (cycleSynth st).2).1]
        rfl
      · simp only [runCycles, List.length_cons, expectedSynth, List.map_cons,
          payloadsOn_append, payloadsOn_cycle_garage, cycle_snd]
        rw [(ih (cycleSynth st).2).2]
        rfl

theorem roundCenti_int (v : ℚ) (n : ℤ) (h : v * 100 = (n : ℚ)) : roundCenti v = n := by
  have hden : (0 : ℤ) < (v.den : ℤ) := by exact_mod_cast v.den_pos
  have hd0 : ((v.den : ℚ)) ≠ 0 := by
    exact_mod_cast Nat.pos_iff_ne_zero.mp v.den_pos
  have hkey : v.num * 100 = n * (v.den : ℤ) := by
    have h1 : ((v.num : ℚ) / (v.den : ℚ)) * 100 = (n : ℚ) := by
      rw [Rat.num_div_den]; exact h
    rw [div_mul_eq_mul_div, div_eq_iff hd0] at h1
    exact_mod_cast h1
  rw [roundCenti]
  have h2 : 200 * v.num + (v.den : ℤ) = (v.den : ℤ) * (2 * n + 1) := by
    linear_combination 2 * hkey
  have h3 : (2 : ℤ) * (v.den : ℤ) = (v.den : ℤ) * 2 := by ring
  rw [h2, h3, Int.fdiv_eq_ediv _ (by positivity), Int.mul_ediv_mul_of_pos _ _ hden]
  omega

theorem fmt2_divInt100 (n : ℤ) : fmt2 (Rat.divInt n 100) = renderCenti n := by
  rw [fmt2]
  congr 1
  apply roundCenti_int
  rw [Rat.divInt_eq_div]
  field_simp

theorem matchLit_append (pre rest : List Char) : matchLit pre (pre ++ rest) = some rest := by
  induction pre with
  | nil => rfl
  | cons c cs ih => simp [matchLit, ih]

theorem skipWs_ws (c : Char) (h : isWs c = true) (t : List Char) :
    skipWs (c :: t) = skipWs t := by
  simp [skipWs, h]

theorem skipWs_not (c : Char) (h : isWs c = false) (t : List Char) :
    skipWs (c :: t) = c :: t := by
  simp [skipWs, h]

theorem splitSign_digit (c : Char) (h1 : c ≠ '-') (h2 : c ≠ '+') (t : List Char) :
    splitSign (c :: t) = (false, c :: t) := by
  simp [splitSign, h1, h2]

theorem parseFloatTok_render_core (ip m2 : Nat) (hm2 : m2 < 100) :
    parseFloatTok ((decRepr ip).map decDigitChar
        ++ '.' :: decDigitChar (m2 / 10 % 10) :: decDigitChar (m2 % 10) :: ' ' :: 'A' :: [])
      = some (⟨false, ip, m2, 2⟩, ' ' :: 'A' :: [])
    ∧ parseFloatTok ('-' :: ((decRepr ip).map decDigitChar
        ++ '.' :: decDigitChar (m2 / 10 % 10) :: decDigitChar (m2 % 10) :: ' ' :: 'A' :: []))
      = some (⟨true, ip, m2, 2⟩, ' ' :: 'A' :: []) := by
  obtain ⟨d0, ds0, hds⟩ := List.exists_cons_of_ne_nil (decRepr_ne_nil ip)
  have hd0 : d0 < 10 := decRepr_lt ip d0 (by rw [hds]; exact List.mem_cons_self d0 ds0)
  have hf0 := decDigitChar_facts d0 hd0
  have hip : parseNatAcc ((decRepr ip).map decDigitChar
      ++ '.' :: decDigitChar (m2 / 10 % 10) :: decDigitChar (m2 % 10) :: ' ' :: 'A' :: []) 0 0
      = (ip, 0 + (decRepr ip).length,
         '.' :: decDigitChar (m2 / 10 % 10) :: decDigitChar (m2 % 10) :: ' ' :: 'A' :: []) := by
    rw [parseNatAcc_digits (decRepr ip) (decRepr_lt ip) _ (by exact rfl) 0 0, decRepr_foldl]
  have hfrac : parseNatAcc (decDigitChar (m2 / 10 % 10) :: decDigitChar (m2 % 10)
      :: ' ' :: 'A' :: []) 0 0 = (m2, 2, ' ' :: 'A' :: []) := by
    have h1 := parseNatAcc_digits [m2 / 10 % 10, m2 % 10]
      (by intro d hd; simp at hd; rcases hd with h | h <;> omega)
      (' ' :: 'A' :: []) (by exact rfl) 0 0
    simp only [List.map_cons, List.map_nil, List.cons_append, List.nil_append] at h1
    rw [h1]
    simp only [List.foldl_cons, List.foldl_nil, List.length_cons, List.length_nil]
    have h2 : (0 * 10 + m2 / 10 % 10) * 10 + m2 % 10 = m2 := by omega
    rw [h2]
  have hlen : (decRepr ip).length ≠ 0 := by
    rw [hds]; simp
  have hdig : skipWs ((decRepr ip).map decDigitChar
      ++ '.' :: decDigitChar (m2 / 10 % 10) :: decDigitChar (m2 % 10) :: ' ' :: 'A' :: [])
      = (decRepr ip).map decDigitChar
        ++ '.' :: decDigitChar (m2 / 10 % 10) :: decDigitChar (m2 % 10) :: ' ' :: 'A' :: [] := by
    rw [hds, List.map_cons, List.cons_append, skipWs_not _ hf0.2.2.2.2.1]
  have hsign : splitSign ((decRepr ip).map decDigitChar
      ++ '.' :: decDigitChar (m2 / 10 % 10) :: decDigitChar (m2 % 10) :: ' ' :: 'A' :: [])
      = (false, (decRepr ip).map decDigitChar
        ++ '.' :: decDigitChar (m2 / 10 % 10) :: decDigitChar (m2 % 10) :: ' ' :: 'A' :: []) := by
    rw [hds, List.map_cons, List.cons_append, splitSign_digit _ hf0.2.2.1 hf0.2.2.2.1]
  constructor
  · simp only [parseFloatTok, hdig, hsign, hip, hfrac]
    simp only [eq_self_iff_true, if_true, hfrac]
    rw [if_neg (by omega)]
  · simp only [parseFloatTok, skipWs_not '-' rfl, splitSign]
    simp only [eq_self_iff_true, if_true, hip]
    simp only [eq_self_iff_true, if_true, hfrac]
    rw [if_neg (by omega)]

theorem parseFloatTok_ws (c : Char) (h : isWs c = true) (X : List Char) :
    parseFloatTok (c :: X) = parseFloatTok X := by
  simp only [parseFloatTok, skipWs_ws c h]

theorem renderCenti_data (n : ℤ) :
    (renderCenti n).data ++ (' ' :: 'A' :: [])
      = (if n < 0 then ['-'] else []) ++ ((decRepr (n.natAbs / 100)).map decDigitChar
          ++ '.' :: decDigitChar (n.natAbs % 100 / 10 % 10)
          :: decDigitChar (n.natAbs % 100 % 10) :: ' ' :: 'A' :: []) := by
  by_cases hn : n < 0 <;>
    simp [renderCenti, hn, String.data_append, natToDecStr, twoDigits]

theorem parseCurrent_renderCenti (n : ℤ) :
    parseCurrent ("Current reading: " ++ renderCenti n ++ " A")
      = some (Rat.divInt n 100) := by
  have hstep : parseCurrent ("Current reading: " ++ renderCenti n ++ " A")
      = (parseFloatTok (' ' :: ((renderCenti n).data ++ (' ' :: 'A' :: [])))).map
          (fun p => floatTokVal p.1) := rfl
  rw [hstep, parseFloatTok_ws ' ' rfl, renderCenti_data n]
  have hNat : 100 * (n.natAbs / 100) + n.natAbs % 100 = n.natAbs :=
    Nat.div_add_mod n.natAbs 100
  by_cases hn : n < 0
  · rw [if_pos hn, List.singleton_append,
      (parseFloatTok_render_core (n.natAbs / 100) (n.natAbs % 100)
        (Nat.mod_lt _ (by norm_num))).2]
    simp only [Option.map_some']
    congr 1
    rw [floatTokVal]
    simp only [if_true]
    rw [Rat.divInt_eq_div]
    have hZ : ((100 * (n.natAbs / 100) + n.natAbs % 100 : ℕ) : ℤ) = -n := by
      rw [hNat]
      exact Int.ofNat_natAbs_of_nonpos (le_of_lt hn)
    have key : (((100 * (n.natAbs / 100) + n.natAbs % 100 : ℕ) : ℤ) : ℚ)
        = ((-n : ℤ) : ℚ) := congrArg (fun z : ℤ => (z : ℚ)) hZ
    simp only [Nat.cast_add, Nat.cast_mul, Nat.cast_ofNat, Int.cast_add,
      Int.cast_mul, Int.cast_ofNat, Int.cast_natCast, Int.cast_neg] at key
    field_simp
    linarith
  · rw [if_neg hn, List.nil_append,
      (parseFloatTok_render_core (n.natAbs / 100) (n.natAbs % 100)
        (Nat.mod_lt _ (by norm_num))).1]
    simp only [Option.map_some']
    congr 1
    rw [floatTokVal]
    simp only [Bool.false_eq_true, if_false]
    rw [Rat.divInt_eq_div]
    have hZ : ((100 * (n.natAbs / 100) + n.natAbs % 100 : ℕ) : ℤ) = n := by
      rw [hNat]
      exact Int.natAbs_of_nonneg (not_lt.mp hn)
    have key : (((100 * (n.natAbs / 100) + n.natAbs % 100 : ℕ) : ℤ) : ℚ)
        = ((n : ℤ) : ℚ) := congrArg (fun z : ℤ => (z : ℚ)) hZ
    simp only [Nat.cast_add, Nat.cast_mul, Nat.cast_ofNat, Int.cast_add,
      Int.cast_mul, Int.cast_ofNat, Int.cast_natCast] at key
    field_simp
    linarith

/-- C7: round trip of the fixed template at two-decimal precision. For
every two-decimal value, that is every integer count n of hundredths,
the %.2f formatter prints it as renderCenti n, and parsing the template
Current reading: (that text) A extracts exactly the value n / 100 —
the parser returns precisely the floating-point value present in the
input, for positive and negative values alike. -/
theorem C7_formatParseRoundTrip (n : ℤ) :
    fmt2 (Rat.divInt n 100) = renderCenti n
    ∧ parseCurrent ("Current reading: " ++ fmt2 (Rat.divInt n 100) ++ " A")
        = some (Rat.divInt n 100) := by
  refine ⟨fmt2_divInt100 n, ?_⟩
  rw [fmt2_divInt100 n]
  exact parseCurrent_renderCenti n

end CorrienteMqtt
